import Mathlib

/-!
Verification development for the Risk & Correlation Analytics Engine of the
Hackathon-Blockchain repository (`risk_metrics.py`, `correlation_analyzer.py`).

Numbers: the Python code computes with IEEE doubles.  We embed finite float
values as exact rationals (`ℚ`) for all code that stays inside `+, -, *, /`,
and as exact reals (`ℝ`) once `np.sqrt` (an irrational operation) enters.
A value of type `Option ℚ` (or `Option ℝ`) is a float where `none` models a
non-finite result (NaN or ±infinity); in every operation reachable from the
claims a non-finite value arises exactly from division by zero, and it then
propagates through arithmetic and makes every comparison `False`, as IEEE
NaN does.
-/

/-- Float addition on finite-or-non-finite rationals: NaN/∞ propagates. -/
def faddQ : Option ℚ → Option ℚ → Option ℚ
  | some a, some b => some (a + b)
  | _, _ => none

/-- Float subtraction: NaN/∞ propagates. -/
def fsubQ : Option ℚ → Option ℚ → Option ℚ
  | some a, some b => some (a - b)
  | _, _ => none

/-- Float multiplication: NaN/∞ propagates (note `0 * NaN = NaN` in IEEE). -/
def fmulQ : Option ℚ → Option ℚ → Option ℚ
  | some a, some b => some (a * b)
  | _, _ => none

/-- Float division.  For finite operands the result is non-finite exactly
when the divisor is 0 (IEEE: `0/0 = NaN`, `x/0 = ±∞`); both are `none`. -/
def fdivQ : Option ℚ → Option ℚ → Option ℚ
  | some a, some b => if b = 0 then none else some (a / b)
  | _, _ => none

/-- Python float sum of a list (left fold starting at 0, like `sum(...)`). -/
def fsumQ (l : List (Option ℚ)) : Option ℚ := l.foldl faddQ (some 0)

/-- The comparison `x > c` on a float: `False` when `x` is NaN, as in IEEE. -/
def fgtQ (x : Option ℚ) (c : ℚ) : Bool :=
  match x with
  | some a => decide (c < a)
  | none => false

/-- Cast a finite-or-non-finite rational float to the real-valued layer. -/
def toR (x : Option ℚ) : Option ℝ := x.map (fun q => (q : ℝ))

/-- Real-layer float subtraction: NaN/∞ propagates. -/
noncomputable def fsubR : Option ℝ → Option ℝ → Option ℝ
  | some a, some b => some (a - b)
  | _, _ => none

/-- Real-layer float multiplication: NaN/∞ propagates. -/
noncomputable def fmulR : Option ℝ → Option ℝ → Option ℝ
  | some a, some b => some (a * b)
  | _, _ => none

/-- Real-layer float division: non-finite iff the divisor is 0. -/
noncomputable def fdivR : Option ℝ → Option ℝ → Option ℝ
  | some a, some b => if b = 0 then none else some (a / b)
  | _, _ => none

/-- `np.sqrt` on a float: NaN in, NaN out; NaN on negative input;
`Real.sqrt` on a non-negative finite input. -/
noncomputable def fsqrt : Option ℚ → Option ℝ
  | none => none
  | some q => if q < 0 then none else some (Real.sqrt (q : ℝ))

/-!
Embedding of `risk_metrics.py` (`class RiskCalculator`).

A portfolio row of the input DataFrame is `(symbol, value_usd)`; the other
columns are never read by the risk calculator.
-/

/-- A portfolio: the `symbol` and `value_usd` columns of `portfolio_data`. -/
abbrev Portfolio := List (String × ℚ)

/-- The context of constants the Python process fixes once:
`u` is the stream of doubles that `np.random.rand` produces right after
`np.random.seed(42)` (consumed row-major by `np.random.rand(n, n)`), and
`z05` is the double `scipy.stats.norm.ppf(0.05)` (≈ -1.6449).  `hu` records
a fact of that fixed seed-42 stream: every draw of `np.random.rand` lies in
`[0, 1)` and none of the draws consumed here is exactly `0.0`. -/
structure Ctx where
  u : ℕ → ℚ
  hu : ∀ k, 0 < u k ∧ u k < 1
  z05 : ℝ

/-- Dictionary lookup with a default, as `dict.get(symbol, default)`. -/
def lookupD (tbl : List (String × ℚ)) (s : String) (d : ℚ) : ℚ :=
  ((tbl.find? (fun kv => kv.1 == s)).map Prod.snd).getD d

/-- The `volatility_map` dictionary of `_get_token_volatilities`. -/
def volatility_table : List (String × ℚ) :=
  [("SOL", 0.6), ("USDC", 0.01), ("USDT", 0.01), ("RAY", 0.8), ("SRM", 0.7),
   ("ORCA", 0.75), ("MNGO", 0.8), ("STEP", 0.7), ("COPE", 0.9), ("FIDA", 0.8),
   ("KIN", 0.6), ("MAPS", 0.8), ("OXY", 0.8), ("PORT", 0.7), ("ROPE", 0.8),
   ("SAMO", 0.9), ("SLIM", 0.8), ("SNY", 0.7), ("TULIP", 0.8), ("LIQ", 0.7)]

/-- `volatility_map.get(symbol, 0.5)` of `_get_token_volatilities`. -/
def volatility_map (s : String) : ℚ := lookupD volatility_table s 0.5

/-- The `return_map` dictionary of `_get_expected_returns`. -/
def return_table : List (String × ℚ) :=
  [("SOL", 0.15), ("USDC", 0.03), ("USDT", 0.03), ("RAY", 0.25), ("SRM", 0.20),
   ("ORCA", 0.22), ("MNGO", 0.30), ("STEP", 0.20), ("COPE", 0.35), ("FIDA", 0.25),
   ("KIN", 0.15), ("MAPS", 0.25), ("OXY", 0.25), ("PORT", 0.20), ("ROPE", 0.30),
   ("SAMO", 0.40), ("SLIM", 0.25), ("SNY", 0.20), ("TULIP", 0.25), ("LIQ", 0.20)]

/-- `return_map.get(symbol, 0.15)` of `_get_expected_returns`. -/
def return_map (s : String) : ℚ := lookupD return_table s 0.15

/-- `self.risk_free_rate = 0.05`. -/
def risk_free_rate : ℚ := 0.05

/-- `portfolio_data['value_usd'].sum()`. -/
def totalValue (p : Portfolio) : ℚ := (p.map Prod.snd).sum

/-- `portfolio_data['weight'] = portfolio_data['value_usd'] / total_value`:
the per-row weight as a float (NaN when the total is 0, since every
division by a zero total here has the form `0/0` or `v/0`). -/
def weightAt (p : Portfolio) (v : ℚ) : Option ℚ :=
  fdivQ (some v) (some (totalValue p))

/-- The `weight` column, aligned with the rows of the portfolio. -/
def weightCol (p : Portfolio) : List (Option ℚ) :=
  p.map (fun h => weightAt p h.2)

/-- The `i, j` pairs of `for i in range(n): for j in range(i+1, n)`. -/
def pairList (n : ℕ) : List (ℕ × ℕ) :=
  (List.range n).flatMap (fun i => (List.range' (i + 1) (n - (i + 1))).map (fun j => (i, j)))

/-- Row `i` of a float column, `none` out of range (never reached: all
indices used come from `pairList`). -/
def colAt (l : List (Option ℚ)) (i : ℕ) : Option ℚ := (l[i]?).getD none

/-- Entry `i` of the token volatility list, `0` out of range. -/
def volAt (p : Portfolio) (i : ℕ) : ℚ := ((p.map (fun h => volatility_map h.1))[i]?).getD 0

/-- `_calculate_portfolio_volatility` up to (but not including) `np.sqrt`:
`Σᵢ wᵢ²σᵢ² + Σᵢ<ⱼ 2 wᵢ wⱼ σᵢ σⱼ · 0.3` accumulated as float arithmetic. -/
def portfolio_variance (p : Portfolio) : Option ℚ :=
  let diag := fsumQ (p.map
    (fun h => fmulQ (fmulQ (weightAt p h.2) (weightAt p h.2))
      (some (volatility_map h.1 * volatility_map h.1))))
  let cross := fsumQ ((pairList p.length).map (fun ij =>
    fmulQ (fmulQ (colAt (weightCol p) ij.1) (colAt (weightCol p) ij.2))
      (some (2 * volAt p ij.1 * volAt p ij.2 * 0.3))))
  faddQ diag cross

/-- `_calculate_portfolio_volatility`: `np.sqrt(portfolio_variance)`. -/
noncomputable def calculate_portfolio_volatility (p : Portfolio) : Option ℝ :=
  fsqrt (portfolio_variance p)

/-- The `portfolio_return = sum(weight * ret ...)` line of
`_calculate_sharpe_ratio`, with expected returns from `return_map`. -/
def portfolio_return (p : Portfolio) : Option ℚ :=
  fsumQ (p.map (fun h => fmulQ (weightAt p h.2) (some (return_map h.1))))

/-- `_calculate_sharpe_ratio`: `(portfolio_return - 0.05) / vol` when
`vol > 0` (false for NaN), else `0`. -/
noncomputable def calculate_sharpe (p : Portfolio) : Option ℝ :=
  match calculate_portfolio_volatility p with
  | some v =>
      if 0 < v then fdivR (fsubR (toR (portfolio_return p)) (some ((0.05 : ℝ)))) (some v)
      else some 0
  | none => some 0

/-- `_calculate_max_drawdown`: `portfolio_volatility * 2.5`. -/
noncomputable def calculate_max_drawdown (p : Portfolio) : Option ℝ :=
  fmulR (calculate_portfolio_volatility p) (some (2.5 : ℝ))

/-- `_calculate_var` at confidence 0.95:
`portfolio_value * portfolio_volatility * abs(z_score)`. -/
noncomputable def calculate_var (ctx : Ctx) (p : Portfolio) : Option ℝ :=
  fmulR (fmulR (some ((totalValue p : ℝ))) (calculate_portfolio_volatility p))
    (some |ctx.z05|)

/-- `_calculate_cvar` at confidence 0.95: `var * 1.3`. -/
noncomputable def calculate_cvar (ctx : Ctx) (p : Portfolio) : Option ℝ :=
  fmulR (calculate_var ctx p) (some (1.3 : ℝ))

/-- `_calculate_concentration_risk`: the HHI `sum(weight ** 2)` against the
thresholds `> 0.25 → 'High'`, `> 0.15 → 'Medium'`, else `'Low'`
(a NaN HHI fails both comparisons and lands on `'Low'`). -/
def calculate_concentration_risk (p : Portfolio) : String :=
  let hhi := fsumQ (p.map (fun h => fmulQ (weightAt p h.2) (weightAt p h.2)))
  if fgtQ hhi 0.25 then "High"
  else if fgtQ hhi 0.15 then "Medium"
  else "Low"

/-- `_calculate_diversification_ratio`: `Σ wᵢσᵢ / vol` when `vol > 0`
(false for NaN), else `1.0`. -/
noncomputable def calculate_diversification (p : Portfolio) : Option ℝ :=
  let wav := fsumQ (p.map (fun h => fmulQ (weightAt p h.2) (some (volatility_map h.1))))
  match calculate_portfolio_volatility p with
  | some v => if 0 < v then fdivR (toR wav) (some v) else some 1
  | none => some 1

/-- The result of `_analyze_correlations`: `correlation_matrix` is `none`
when the key is absent (fewer than 2 symbols); `avg_correlation` and
`max_correlation` are floats where `none` additionally marks the NaN of
`np.mean([])` resp. the `ValueError` that `np.max([])` raises. -/
structure CorrSummary where
  avg_correlation : Option ℚ
  max_correlation : Option ℚ
  correlation_risk : String
  correlation_matrix : Option (List (List ℚ))
  deriving DecidableEq

/-- `np.mean` of a 1-d array: NaN (`none`) on an empty array. -/
def npMean (l : List ℚ) : Option ℚ :=
  match l with
  | [] => none
  | x :: xs => some ((x :: xs).sum / (x :: xs).length)

/-- `np.max` of a 1-d array: raises `ValueError` (`none`) on an empty
array, otherwise the maximum. -/
def npMax (l : List ℚ) : Option ℚ :=
  match l with
  | [] => none
  | x :: xs => some (xs.foldl max x)

/-- The placeholder matrix of `_analyze_correlations` for `n` symbols:
`np.random.seed(42); R = np.random.rand(n, n); M = (R + Rᵀ)/2;`
`np.fill_diagonal(M, 1.0)`.  `R i j` is the `(i*n+j)`-th draw of the
freshly seeded stream, so `M` is a function of `n` alone. -/
def placeholderMatrix (ctx : Ctx) (n : ℕ) (i j : ℕ) : ℚ :=
  if i = j then 1 else (ctx.u (i * n + j) + ctx.u (j * n + i)) / 2

/-- `_analyze_correlations`.  For `n ≥ 2` the strict upper triangle is
flattened and filtered by `!= 0` (`upper_triangle[upper_triangle != 0]`)
before `np.mean` / `np.max`; `correlation_risk` compares the float average
with `> 0.7` / `> 0.4` (both false for NaN). -/
def analyze_correlations (ctx : Ctx) (symbols : List String) : CorrSummary :=
  let n := symbols.length
  if n < 2 then
    { avg_correlation := some 0, max_correlation := some 0
      correlation_risk := "Low", correlation_matrix := none }
  else
    let M := placeholderMatrix ctx n
    let correlations := ((pairList n).map (fun ij => M ij.1 ij.2)).filter (fun q => q ≠ 0)
    let avg := npMean correlations
    let risk := if fgtQ avg 0.7 then "High" else if fgtQ avg 0.4 then "Medium" else "Low"
    { avg_correlation := avg, max_correlation := npMax correlations
      correlation_risk := risk
      correlation_matrix :=
        some ((List.range n).map (fun i => (List.range n).map (fun j => M i j))) }

/-- The Risk Metric Set built by `calculate_risk_metrics` (dictionary keys
`portfolio_volatility`, `sharpe_ratio`, ..., `token_weights`, merged with
the `_analyze_correlations` result). -/
structure RiskMetrics where
  portfolio_volatility : Option ℝ
  sharpe : Option ℝ
  max_drawdown : Option ℝ
  var_95 : Option ℝ
  cvar_95 : Option ℝ
  concentration_risk : String
  diversification : Option ℝ
  token_weights : List (String × Option ℚ)
  corr : CorrSummary

/-- `calculate_risk_metrics`: `{}` (here `none`) for an empty portfolio,
otherwise the full metric set. -/
noncomputable def calculate_risk_metrics (ctx : Ctx) (p : Portfolio) :
    Option RiskMetrics :=
  if p = [] then none
  else some
    { portfolio_volatility := calculate_portfolio_volatility p
      sharpe := calculate_sharpe p
      max_drawdown := calculate_max_drawdown p
      var_95 := calculate_var ctx p
      cvar_95 := calculate_cvar ctx p
      concentration_risk := calculate_concentration_risk p
      diversification := calculate_diversification p
      token_weights := p.map (fun h => (h.1, weightAt p h.2))
      corr := analyze_correlations ctx (p.map Prod.fst) }

/-!
Embedding of `correlation_analyzer.py` (`class CorrelationAnalyzer`).

The mock data generator consumes the NumPy global random stream after
`np.random.seed(42)`.  We abstract that fixed seeded stream as two draw
sequences indexed by a consumption counter: `nrm k` is the `k`-th
standard-normal variate and `unif k` the `k`-th `Uniform(-0.2, 0.2)`
variate; the counter is threaded through the per-symbol draws in program
order.  The seed fixes these sequences, so they are constants of the
program; the theorems quantify over them.
-/

/-- The seeded random streams backing `_generate_mock_historical_data`. -/
structure MockGen where
  nrm : ℕ → ℝ
  unif : ℕ → ℝ

/-- The daily return series drawn for one symbol, together with the stream
position after the draws.  `SOL`: `np.random.normal(0.001, 0.05, days)`;
`USDC`/`USDT`: `np.random.normal(0.0001, 0.001, days)`; anything else:
`sol_correlation = 0.6 + np.random.uniform(-0.2, 0.2)` and then the blend
`sol_correlation * normal(0.001, 0.05, days) + (1 - sol_correlation) *
normal(0.001, 0.08, days)`. -/
noncomputable def symbolReturns (g : MockGen) (c : ℕ) (sym : String) (days : ℕ) :
    (ℕ → ℝ) × ℕ :=
  if sym = "SOL" then
    (fun j => 0.001 + 0.05 * g.nrm (c + j), c + days)
  else if sym = "USDC" ∨ sym = "USDT" then
    (fun j => 0.0001 + 0.001 * g.nrm (c + j), c + days)
  else
    let sol_correlation := 0.6 + g.unif c
    (fun j => sol_correlation * (0.001 + 0.05 * g.nrm (c + 1 + j)) +
        (1 - sol_correlation) * (0.001 + 0.08 * g.nrm (c + 1 + days + j)),
      c + 1 + 2 * days)

/-- The price walk `prices = [base_price]; for ret in returns[1:]:
prices.append(prices[-1] * (1 + ret))`: note the first return is skipped,
so `prices[k] = prices[k-1] * (1 + returns[k])`. -/
noncomputable def pricesFrom (base : ℝ) (ret : ℕ → ℝ) : ℕ → ℝ
  | 0 => base
  | j + 1 => pricesFrom base ret j * (1 + ret (j + 1))

/-- The per-symbol loop of `_generate_mock_historical_data`: `i` is the
enumeration index (`base_price = 100 * (i + 1)`), `c` the stream position. -/
noncomputable def genAux (g : MockGen) (days : ℕ) :
    ℕ → ℕ → List String → List (String × (ℕ → ℝ))
  | _, _, [] => []
  | c, i, s :: rest =>
    let r := symbolReturns g c s days
    (s, pricesFrom (100 * (i + 1)) r.1) :: genAux g days r.2 (i + 1) rest

/-- `_generate_mock_historical_data(symbols, days)`.  `rngPos` is the
global RNG position when the call starts; the first statement of the body,
`np.random.seed(42)`, resets the stream, so the draws start at position 0
no matter what `rngPos` is.  Each series has `days` points (indices
`0 ... days - 1`). -/
noncomputable def generate_mock_historical_data (g : MockGen) (_rngPos : ℕ)
    (symbols : List String) (days : ℕ) : List (String × (ℕ → ℝ)) :=
  genAux g days 0 0 symbols

/-- `pct_change` of one price column: row `j` of the result is
`(p (j+1) - p j) / p j` (the undefined first row is already dropped, as
`dropna()` does).  Real division stands in for float division; the
divisor is a generated price and is nonzero in every scenario the claims
touch (a zero price would need a synthetic daily return of exactly -1). -/
noncomputable def pct_change (p : ℕ → ℝ) (j : ℕ) : ℝ := (p (j + 1) - p j) / p j

/-- Centered cross-product sum over the first `m` rows:
`Σⱼ (x j - mean x)(y j - mean y)`.  Pearson correlation is invariant to
the `1/(m-1)` normalisation, so covariances reduce to these sums. -/
noncomputable def centeredSum (m : ℕ) (x y : ℕ → ℝ) : ℝ :=
  let mx := (∑ j ∈ Finset.range m, x j) / m
  let my := (∑ j ∈ Finset.range m, y j) / m
  ∑ j ∈ Finset.range m, (x j - mx) * (y j - my)

/-- Pearson correlation of two columns over `m` rows, as
`DataFrame.corr` computes it: covariance over the product of standard
deviations.  When a column is constant the float result is NaN; the real
model returns the junk value 0 there, and every theorem that reads an
entry assumes nonzero variance. -/
noncomputable def pearson (m : ℕ) (x y : ℕ → ℝ) : ℝ :=
  centeredSum m x y / (Real.sqrt (centeredSum m x x) * Real.sqrt (centeredSum m y y))

/-- A correlation matrix as `DataFrame.corr` returns it: the column
labels and the entry table. -/
structure CorrMatrixR where
  syms : List String
  entry : ℕ → ℕ → ℝ

/-- Column `i` of a price table, the constant 0 column out of range. -/
noncomputable def tblCol (tbl : List (String × (ℕ → ℝ))) (i : ℕ) : ℕ → ℝ :=
  ((tbl[i]?).map Prod.snd).getD (fun _ => 0)

/-- `calculate_correlations(price_data)`: empty in, empty out; otherwise
the Pearson matrix of the day-over-day percentage returns, which have
`days - 1` rows after `dropna()`.  There is no "insufficient data"
marker: one column in, a 1×1 matrix out. -/
noncomputable def calculate_correlations (days : ℕ)
    (tbl : List (String × (ℕ → ℝ))) : CorrMatrixR :=
  { syms := tbl.map Prod.fst
    entry := fun i j =>
      pearson (days - 1) (pct_change (tblCol tbl i)) (pct_change (tblCol tbl j)) }

/-!
Embedding of `analyze_correlation_insights`.  Its input is any correlation
matrix (a DataFrame); entries are finite doubles, embedded as rationals so
that every claim about this function is decidable.
-/

/-- A correlation matrix input to `analyze_correlation_insights`. -/
structure CorrMatrixQ where
  syms : List String
  entry : ℕ → ℕ → ℚ

/-- The flattened off-diagonal entries `correlations[mask]` with
`mask = ~np.eye(n)`: both orders of every pair, in row-major order. -/
def offDiagAll (M : CorrMatrixQ) : List ℚ :=
  let n := M.syms.length
  (List.range n).flatMap (fun i =>
    ((List.range n).filter (fun j => j ≠ i)).map (fun j => M.entry i j))

/-- The pairs `(i, j)`, `i < j`, whose correlation is `> 0.7`, labelled
`"tokens[i] ↔ tokens[j]"` as in the Python loop. -/
def highCorrelationPairs (M : CorrMatrixQ) : List (String × ℚ) :=
  ((pairList M.syms.length).filter (fun ij => decide (M.entry ij.1 ij.2 > 0.7))).map
    (fun ij => ((M.syms[ij.1]?).getD "" ++ " ↔ " ++ (M.syms[ij.2]?).getD "",
      M.entry ij.1 ij.2))

/-- The pairs `(i, j)`, `i < j`, whose correlation is `< -0.3`. -/
def lowCorrelationPairs (M : CorrMatrixQ) : List (String × ℚ) :=
  ((pairList M.syms.length).filter (fun ij => decide (M.entry ij.1 ij.2 < -0.3))).map
    (fun ij => ((M.syms[ij.1]?).getD "" ++ " ↔ " ++ (M.syms[ij.2]?).getD "",
      M.entry ij.1 ij.2))

/-- The Insight Report of `analyze_correlation_insights`. -/
structure InsightReport where
  avg_correlation : ℚ
  max_correlation : ℚ
  min_correlation : ℚ
  high_correlations : List (String × ℚ)
  low_correlations : List (String × ℚ)
  diversification_score : ℚ
  risk_insights : List String
  deriving DecidableEq

/-- The all-default report returned for an empty matrix. -/
def zeroReport : InsightReport :=
  { avg_correlation := 0, max_correlation := 0, min_correlation := 0
    high_correlations := [], low_correlations := []
    diversification_score := 0, risk_insights := [] }

/-- `analyze_correlation_insights(correlation_matrix)`.  An empty matrix
returns `zeroReport`.  Otherwise the off-diagonal entries are collected;
on a 1×1 matrix that collection is empty and `np.max` raises
`ValueError` (the preceding `np.mean` only warns and yields NaN), which
the embedding surfaces as `Except.error`.  With at least one off-diagonal
entry the report is built from exact arithmetic and the five threshold
insights, in program order. -/
def analyze_correlation_insights (M : CorrMatrixQ) :
    Except String InsightReport :=
  if M.syms = [] then .ok zeroReport
  else
    match offDiagAll M with
    | [] => .error "zero-size array to reduction operation maximum which has no identity"
    | x :: xs =>
      let n := M.syms.length
      let avg := (x :: xs).sum / (x :: xs).length
      let maxc := xs.foldl max x
      let minc := xs.foldl min x
      let high := highCorrelationPairs M
      let low := lowCorrelationPairs M
      let score := max 0 (1 - |avg|)
      let insights :=
        (if avg > 0.6 then
          ["High average correlation suggests portfolio may not be well diversified"]
        else if avg < 0.2 then
          ["Low average correlation indicates good diversification"]
        else []) ++
        (if maxc > 0.8 then
          ["Some tokens are highly correlated, increasing concentration risk"]
        else []) ++
        (if (high.length : ℚ) > (n : ℚ) / 2 then
          ["Many token pairs are highly correlated, reducing diversification benefits"]
        else []) ++
        (if score < 0.3 then
          ["Portfolio has low diversification score - consider adding uncorrelated assets"]
        else [])
      .ok { avg_correlation := avg, max_correlation := maxc, min_correlation := minc
            high_correlations := high, low_correlations := low
            diversification_score := score, risk_insights := insights }

/-!
Helper lemmas about the float model and the index enumerations.
-/

/-- Adding a NaN on the right gives NaN. -/
theorem faddQ_none_right (x : Option ℚ) : faddQ x none = none := by
  cases x <;> rfl

/-- A float sum that has already gone NaN stays NaN. -/
theorem foldl_faddQ_none (l : List (Option ℚ)) : l.foldl faddQ none = none := by
  induction l with
  | nil => rfl
  | cons x xs ih => simpa [faddQ] using ih

/-- A float sum over a list containing a NaN is NaN. -/
theorem fsumQ_of_mem_none {l : List (Option ℚ)} (h : none ∈ l) : fsumQ l = none := by
  unfold fsumQ
  generalize (some (0 : ℚ)) = a
  induction l generalizing a with
  | nil => simp at h
  | cons x xs ih =>
    rcases List.mem_cons.1 h with hx | hx
    · subst hx
      simp [faddQ_none_right, foldl_faddQ_none]
    · exact ih hx _

/-- A float sum of finite values is the exact rational sum. -/
theorem foldl_faddQ_some (l : List ℚ) (a : ℚ) :
    (l.map some).foldl faddQ (some a) = some (a + l.sum) := by
  induction l generalizing a with
  | nil => simp
  | cons x xs ih => simp [faddQ, ih, add_assoc]

/-- `fsumQ` on an all-finite list is `some` of the rational sum. -/
theorem fsumQ_map_some (l : List ℚ) : fsumQ (l.map some) = some l.sum := by
  simpa [fsumQ] using foldl_faddQ_some l 0

/-- With a nonzero total, each weight is the finite ratio `v / total`. -/
theorem weightAt_of_total_ne_zero {p : Portfolio} (ht : totalValue p ≠ 0) (v : ℚ) :
    weightAt p v = some (v / totalValue p) := by
  simp [weightAt, fdivQ, ht]

/-- With a zero total, each weight is NaN. -/
theorem weightAt_of_total_eq_zero {p : Portfolio} (ht : totalValue p = 0) (v : ℚ) :
    weightAt p v = none := by
  simp [weightAt, fdivQ, ht]

/-- Membership in the pair enumeration is exactly `i < j < n`. -/
theorem mem_pairList {n i j : ℕ} : (i, j) ∈ pairList n ↔ i < j ∧ j < n := by
  simp only [pairList, List.mem_flatMap, List.mem_map, List.mem_range, List.mem_range'_1,
    Prod.mk.injEq]
  constructor
  · rintro ⟨a, ha, b, hb, rfl, rfl⟩
    omega
  · rintro ⟨hij, hjn⟩
    exact ⟨i, by omega, j, by omega, rfl, rfl⟩

/-- The pair enumeration of an `n`-symbol matrix has `n(n-1)/2` entries. -/
theorem length_pairList (n : ℕ) : (pairList n).length = n * (n - 1) / 2 := by
  have h1 : (pairList n).length =
      ((List.range n).map (fun i => n - (i + 1))).sum := by
    simp [pairList, List.length_flatMap, Function.comp_def]
  have h2 : ((List.range n).map (fun i => n - (i + 1))).sum =
      ∑ i ∈ Finset.range n, (n - 1 - i) := by
    have : (fun i => n - (i + 1)) = fun i => n - 1 - i := by
      funext i; omega
    rw [this]; rfl
  have h3 : ∑ i ∈ Finset.range n, (n - 1 - i) = ∑ i ∈ Finset.range n, i :=
    Finset.sum_range_reflect (fun i => i) n
  rw [h1, h2, h3, Finset.sum_range_id]

/-- Every token volatility in the lookup table is positive. -/
theorem volatility_map_pos (s : String) : 0 < volatility_map s := by
  unfold volatility_map lookupD
  rcases h : volatility_table.find? (fun kv => kv.1 == s) with _ | kv
  · simp only [h, Option.map_none', Option.getD_none]
    norm_num
  · have hm := List.mem_of_find?_eq_some h
    have hpos : ∀ kv ∈ volatility_table, 0 < kv.2 := by
      intro kv hkv
      fin_cases hkv <;> norm_num
    simp only [h, Option.map_some', Option.getD_some]
    exact hpos kv hm

/-- A concrete context used by the closed witness statements: a constant
stand-in for the seeded uniform stream and the VaR z-score constant. -/
noncomputable def ctx0 : Ctx :=
  { u := fun _ => 1 / 2, hu := fun _ => by norm_num, z05 := -1.6448536269514722 }

/-- The spec's Herfindahl-Hirschman Index: `HHI = Σ wᵢ²` with
`wᵢ = valueᵢ / total`.  (Spec-side definition, for the refinement claim.) -/
def specHHI (p : Portfolio) : ℚ := (p.map (fun h => (h.2 / totalValue p) ^ 2)).sum

/-- The spec's concentration thresholds: `HHI > 0.25 → High`,
`0.15 < HHI ≤ 0.25 → Medium`, else `Low`.  (Spec-side definition.) -/
def specConcentrationClass (hhi : ℚ) : String :=
  if hhi > 0.25 then "High" else if hhi > 0.15 then "Medium" else "Low"

/-- With a nonzero total the concentration risk the code computes is the
spec's pure function of the HHI. -/
theorem concentration_eq_spec {p : Portfolio} (ht : totalValue p ≠ 0) :
    calculate_concentration_risk p = specConcentrationClass (specHHI p) := by
  unfold calculate_concentration_risk specConcentrationClass specHHI
  have hmap : p.map (fun h => fmulQ (weightAt p h.2) (weightAt p h.2)) =
      (p.map (fun h => (h.2 / totalValue p) ^ 2)).map some := by
    rw [List.map_map]
    have hfun : (fun h : String × ℚ => fmulQ (weightAt p h.2) (weightAt p h.2)) =
        fun h : String × ℚ => some ((h.2 / totalValue p) ^ 2) := by
      funext h
      rw [weightAt_of_total_ne_zero ht]
      simp [fmulQ, sq]
    rw [hfun]
    rfl
  rw [hmap, fsumQ_map_some]
  simp only [fgtQ, decide_eq_true_eq]

/-- Claim C3: for every portfolio with positive total value, the
`concentration_risk` field of `calculate_risk_metrics` is the pure
function of `HHI = Σ wᵢ²` with thresholds `HHI > 0.25 ⇒ High`,
`0.15 < HHI ≤ 0.25 ⇒ Medium`, `HHI ≤ 0.15 ⇒ Low`; in particular
`HHI = 0.30 → High`, `HHI = 0.20 → Medium`, `HHI = 0.10 → Low`. -/
theorem c3_concentration_risk (ctx : Ctx) (p : Portfolio) (ht : 0 < totalValue p) :
    ∃ rm, calculate_risk_metrics ctx p = some rm ∧
      rm.concentration_risk = specConcentrationClass (specHHI p) ∧
      specConcentrationClass 0.30 = "High" ∧
      specConcentrationClass 0.20 = "Medium" ∧
      specConcentrationClass 0.10 = "Low" := by
  have hne : p ≠ [] := by
    intro h
    rw [h] at ht
    simp [totalValue] at ht
  refine ⟨{ portfolio_volatility := calculate_portfolio_volatility p
            sharpe := calculate_sharpe p
            max_drawdown := calculate_max_drawdown p
            var_95 := calculate_var ctx p
            cvar_95 := calculate_cvar ctx p
            concentration_risk := calculate_concentration_risk p
            diversification := calculate_diversification p
            token_weights := p.map (fun h => (h.1, weightAt p h.2))
            corr := analyze_correlations ctx (p.map Prod.fst) },
    ?_, concentration_eq_spec (ne_of_gt ht), ?_, ?_, ?_⟩
  · unfold calculate_risk_metrics
    rw [if_neg hne]
  · norm_num [specConcentrationClass]
  · norm_num [specConcentrationClass]
  · norm_num [specConcentrationClass]

/-- Witness for C3 at the portfolio `[SOL: 70, USDC: 30]` (total 100). -/
theorem c3_concentration_risk_witness :
    0 < totalValue [("SOL", 70), ("USDC", 30)] ∧
    ∃ rm, calculate_risk_metrics ctx0 [("SOL", 70), ("USDC", 30)] = some rm ∧
      rm.concentration_risk = specConcentrationClass (specHHI [("SOL", 70), ("USDC", 30)]) ∧
      specConcentrationClass 0.30 = "High" ∧
      specConcentrationClass 0.20 = "Medium" ∧
      specConcentrationClass 0.10 = "Low" :=
  ⟨by norm_num [totalValue],
    c3_concentration_risk ctx0 [("SOL", 70), ("USDC", 30)] (by norm_num [totalValue])⟩

/-- `calculate_risk_metrics` on a non-empty portfolio, spelled out. -/
theorem calculate_risk_metrics_of_ne_nil (ctx : Ctx) {p : Portfolio} (hne : p ≠ []) :
    calculate_risk_metrics ctx p = some
      { portfolio_volatility := calculate_portfolio_volatility p
        sharpe := calculate_sharpe p
        max_drawdown := calculate_max_drawdown p
        var_95 := calculate_var ctx p
        cvar_95 := calculate_cvar ctx p
        concentration_risk := calculate_concentration_risk p
        diversification := calculate_diversification p
        token_weights := p.map (fun h => (h.1, weightAt p h.2))
        corr := analyze_correlations ctx (p.map Prod.fst) } := by
  unfold calculate_risk_metrics
  rw [if_neg hne]

/-- Adding to a NaN float sum gives NaN. -/
theorem faddQ_none_left (x : Option ℚ) : faddQ none x = none := by
  cases x <;> rfl

/-- Multiplying a NaN float gives NaN. -/
theorem fmulQ_none_left (x : Option ℚ) : fmulQ none x = none := by
  cases x <;> rfl

/-- Real layer: multiplying a NaN float gives NaN. -/
theorem fmulR_none_left (x : Option ℝ) : fmulR none x = none := by
  cases x <;> rfl

/-- Real layer: multiplying by a NaN float gives NaN. -/
theorem fmulR_none_right (x : Option ℝ) : fmulR x none = none := by
  cases x <;> rfl

/-- On an all-zero portfolio the total is zero. -/
theorem totalValue_of_all_zero {p : Portfolio} (hz : ∀ h ∈ p, h.2 = 0) :
    totalValue p = 0 := by
  unfold totalValue
  refine List.sum_eq_zero ?_
  intro x hx
  obtain ⟨h, hh, rfl⟩ := List.mem_map.1 hx
  exact hz h hh

/-- On an all-zero non-empty portfolio the accumulated variance is the
float NaN. -/
theorem portfolio_variance_of_all_zero {p : Portfolio} (hne : p ≠ [])
    (hz : ∀ h ∈ p, h.2 = 0) : portfolio_variance p = none := by
  have ht : totalValue p = 0 := totalValue_of_all_zero hz
  unfold portfolio_variance
  have hdiag : p.map (fun h => fmulQ (fmulQ (weightAt p h.2) (weightAt p h.2))
      (some (volatility_map h.1 * volatility_map h.1))) = p.map (fun _ => none) := by
    refine List.map_congr_left ?_
    intro h _
    rw [weightAt_of_total_eq_zero ht]
    rfl
  have hmem : none ∈ p.map (fun _ : String × ℚ => (none : Option ℚ)) := by
    obtain ⟨x, xs, rfl⟩ := List.exists_cons_of_ne_nil hne
    simp
  rw [hdiag, fsumQ_of_mem_none hmem]
  exact faddQ_none_left _

/-- The embedded correlation summary never goes non-finite (for fewer than
2 symbols it returns literal zeros; otherwise the strict upper triangle of
the placeholder matrix survives the `!= 0` filter because the seeded
stream draws are positive, so `np.mean`/`np.max` act on a non-empty
array). -/
theorem analyze_correlations_finite (ctx : Ctx) (symbols : List String) :
    (analyze_correlations ctx symbols).avg_correlation ≠ none ∧
    (analyze_correlations ctx symbols).max_correlation ≠ none := by
  unfold analyze_correlations
  by_cases hn : symbols.length < 2
  · rw [if_pos hn]
    simp
  · rw [if_neg hn]
    push_neg at hn
    have hpos : 0 < placeholderMatrix ctx symbols.length 0 1 := by
      unfold placeholderMatrix
      rw [if_neg (by omega)]
      have h1 := (ctx.hu (0 * symbols.length + 1)).1
      have h2 := (ctx.hu (1 * symbols.length + 0)).1
      positivity
    have hmem : placeholderMatrix ctx symbols.length 0 1 ∈
        (((pairList symbols.length).map
          (fun ij => placeholderMatrix ctx symbols.length ij.1 ij.2)).filter
            (fun q => q ≠ 0)) := by
      refine List.mem_filter.2 ⟨List.mem_map.2 ⟨(0, 1), ?_, rfl⟩, ?_⟩
      · exact mem_pairList.2 ⟨one_pos, by omega⟩
      · simpa using ne_of_gt hpos
    obtain ⟨x, xs, hxs⟩ := List.exists_cons_of_ne_nil (List.ne_nil_of_mem hmem)
    dsimp only
    rw [hxs]
    simp [npMean, npMax]

/-- Claim C1 (amended): on a non-empty portfolio whose values are all 0,
`calculate_risk_metrics` returns without raising; `sharpe_ratio` is 0,
`concentration_risk` is `'Low'` and `diversification_ratio` is 1.0 (each
because a NaN comparison is false), but `portfolio_volatility`,
`max_drawdown`, `var_95`, `cvar_95` and every entry of `token_weights`
are NaN — not 0. -/
theorem c1_zero_total_value (ctx : Ctx) (p : Portfolio) (hne : p ≠ [])
    (hz : ∀ h ∈ p, h.2 = 0) :
    ∃ rm, calculate_risk_metrics ctx p = some rm ∧
      rm.sharpe = some 0 ∧ rm.concentration_risk = "Low" ∧
      rm.diversification = some 1 ∧
      rm.portfolio_volatility = none ∧ rm.max_drawdown = none ∧
      rm.var_95 = none ∧ rm.cvar_95 = none ∧
      (∀ w ∈ rm.token_weights, w.2 = none) ∧
      rm.corr.avg_correlation ≠ none ∧ rm.corr.max_correlation ≠ none := by
  have ht := totalValue_of_all_zero hz
  have hvar := portfolio_variance_of_all_zero hne hz
  have hvol : calculate_portfolio_volatility p = none := by
    rw [calculate_portfolio_volatility, hvar]
    rfl
  have hvq : calculate_var ctx p = none := by
    unfold calculate_var
    rw [hvol, fmulR_none_right, fmulR_none_left]
  refine ⟨_, calculate_risk_metrics_of_ne_nil ctx hne, ?_, ?_, ?_, hvol, ?_, hvq, ?_,
    ?_, (analyze_correlations_finite ctx _).1, (analyze_correlations_finite ctx _).2⟩
  · show calculate_sharpe p = some 0
    unfold calculate_sharpe
    rw [hvol]
  · show calculate_concentration_risk p = "Low"
    unfold calculate_concentration_risk
    have hmap : p.map (fun h => fmulQ (weightAt p h.2) (weightAt p h.2)) =
        p.map (fun _ => none) := by
      refine List.map_congr_left ?_
      intro h _
      rw [weightAt_of_total_eq_zero ht]
      rfl
    have hmem : none ∈ p.map (fun _ : String × ℚ => (none : Option ℚ)) := by
      obtain ⟨x, xs, rfl⟩ := List.exists_cons_of_ne_nil hne
      simp
    rw [hmap, fsumQ_of_mem_none hmem]
    rfl
  · show calculate_diversification p = some 1
    unfold calculate_diversification
    rw [hvol]
  · show calculate_max_drawdown p = none
    unfold calculate_max_drawdown
    rw [hvol, fmulR_none_left]
  · show calculate_cvar ctx p = none
    unfold calculate_cvar
    rw [hvq, fmulR_none_left]
  · intro w hw
    obtain ⟨h, _, rfl⟩ := List.mem_map.1 hw
    simpa using weightAt_of_total_eq_zero ht h.2

/-- Claim C1 as stated is false: on the all-zero portfolio `[SOL: 0]` the
returned `portfolio_volatility` and `var_95` are the float NaN (`none`),
not 0, and the `token_weights` entry is NaN, not 0. -/
theorem c1_counterexample :
    (calculate_risk_metrics ctx0 [("SOL", 0)]).map RiskMetrics.portfolio_volatility =
      some none ∧
    (calculate_risk_metrics ctx0 [("SOL", 0)]).map RiskMetrics.var_95 = some none ∧
    (calculate_risk_metrics ctx0 [("SOL", 0)]).map RiskMetrics.token_weights =
      some [("SOL", none)] := by
  have hz : ∀ h ∈ ([("SOL", (0 : ℚ))] : Portfolio), h.2 = 0 := by
    intro h hh
    fin_cases hh
    rfl
  have hne : ([("SOL", (0 : ℚ))] : Portfolio) ≠ [] := by simp
  have ht := totalValue_of_all_zero hz
  have hvar := portfolio_variance_of_all_zero hne hz
  have hvol : calculate_portfolio_volatility [("SOL", 0)] = none := by
    rw [calculate_portfolio_volatility, hvar]
    rfl
  rw [calculate_risk_metrics_of_ne_nil ctx0 hne]
  refine ⟨by simp [hvol], ?_, ?_⟩
  · simp only [Option.map_some']
    refine congrArg some ?_
    unfold calculate_var
    rw [hvol, fmulR_none_right, fmulR_none_left]
  · simp [weightAt_of_total_eq_zero ht]

/-- Witness for C1 at the concrete all-zero portfolio `[SOL: 0, USDC: 0]`. -/
theorem c1_zero_total_value_witness :
    (([("SOL", 0), ("USDC", 0)] : Portfolio) ≠ []) ∧
    (∀ h ∈ ([("SOL", 0), ("USDC", 0)] : Portfolio), h.2 = 0) ∧
    (∃ rm, calculate_risk_metrics ctx0 [("SOL", 0), ("USDC", 0)] = some rm ∧
      rm.sharpe = some 0 ∧ rm.concentration_risk = "Low" ∧
      rm.diversification = some 1 ∧
      rm.portfolio_volatility = none ∧ rm.max_drawdown = none ∧
      rm.var_95 = none ∧ rm.cvar_95 = none ∧
      (∀ w ∈ rm.token_weights, w.2 = none) ∧
      rm.corr.avg_correlation ≠ none ∧ rm.corr.max_correlation ≠ none) :=
  ⟨by simp,
   by
    intro h hh
    simp only [List.mem_cons, List.not_mem_nil, or_false] at hh
    rcases hh with rfl | rfl <;> rfl,
   c1_zero_total_value ctx0 [("SOL", 0), ("USDC", 0)] (by simp)
     (by
      intro h hh
      simp only [List.mem_cons, List.not_mem_nil, or_false] at hh
      rcases hh with rfl | rfl <;> rfl)⟩

/-- A 1×1 matrix has no strict upper-triangle pairs. -/
theorem pairList_one : pairList 1 = [] := by decide

/-- Variance of a single-asset portfolio with nonzero value: the weight is
`v/v = 1`, the cross-term sum is empty, so the accumulator is exactly the
square of that asset's lookup volatility. -/
theorem portfolio_variance_single {s : String} {v : ℚ} (hv : 0 < v) :
    portfolio_variance [(s, v)] = some (volatility_map s * volatility_map s) := by
  have htv : totalValue [(s, v)] = v := by simp [totalValue]
  have hw : weightAt [(s, v)] v = some 1 := by
    rw [weightAt_of_total_ne_zero (by rw [htv]; exact hv.ne')]
    rw [htv, div_self hv.ne']
  unfold portfolio_variance
  have hlen : ([(s, v)] : Portfolio).length = 1 := by simp
  rw [hlen, pairList_one]
  simp [fsumQ, faddQ, fmulQ, hw]

/-- Volatility of a single-asset portfolio with nonzero value is exactly
the asset's lookup volatility. -/
theorem volatility_single {s : String} {v : ℚ} (hv : 0 < v) :
    calculate_portfolio_volatility [(s, v)] = some ((volatility_map s : ℝ)) := by
  rw [calculate_portfolio_volatility, portfolio_variance_single hv]
  have hnn : ¬ (volatility_map s * volatility_map s < 0) :=
    not_lt.2 (mul_self_nonneg _)
  simp only [fsqrt, if_neg hnn]
  congr 1
  push_cast
  exact Real.sqrt_mul_self (by exact_mod_cast (volatility_map_pos s).le)

/-- Claim C4: for every single-asset portfolio with positive value,
`calculate_risk_metrics` returns `diversification_ratio = 1.0` and a
`portfolio_volatility` exactly equal to that asset's lookup volatility. -/
theorem c4_single_asset (ctx : Ctx) (s : String) (v : ℚ) (hv : 0 < v) :
    ∃ rm, calculate_risk_metrics ctx [(s, v)] = some rm ∧
      rm.portfolio_volatility = some ((volatility_map s : ℝ)) ∧
      rm.diversification = some 1 := by
  have hvol := volatility_single (s := s) hv
  have hσ : (0 : ℝ) < (volatility_map s : ℝ) := by exact_mod_cast volatility_map_pos s
  have htv : totalValue [(s, v)] = v := by simp [totalValue]
  have hw : weightAt [(s, v)] v = some 1 := by
    rw [weightAt_of_total_ne_zero (by rw [htv]; exact hv.ne')]
    rw [htv, div_self hv.ne']
  refine ⟨_, calculate_risk_metrics_of_ne_nil ctx (by simp), hvol, ?_⟩
  show calculate_diversification [(s, v)] = some 1
  unfold calculate_diversification
  rw [hvol]
  dsimp only
  rw [if_pos hσ]
  have hwav : fsumQ ([(s, v)].map
      (fun h => fmulQ (weightAt [(s, v)] h.2) (some (volatility_map h.1)))) =
      some (volatility_map s) := by
    simp [fsumQ, faddQ, fmulQ, hw]
  rw [hwav]
  rw [show toR (some (volatility_map s)) = some ((volatility_map s : ℝ)) from rfl]
  show (if ((volatility_map s : ℝ)) = 0 then none
    else some (((volatility_map s : ℝ)) / ((volatility_map s : ℝ)))) = some 1
  rw [if_neg hσ.ne', div_self hσ.ne']

/-- Witness for C4 at the portfolio `[RAY: 5]`. -/
theorem c4_single_asset_witness :
    (0 : ℚ) < 5 ∧
    ∃ rm, calculate_risk_metrics ctx0 [("RAY", 5)] = some rm ∧
      rm.portfolio_volatility = some ((volatility_map "RAY" : ℝ)) ∧
      rm.diversification = some 1 :=
  ⟨by norm_num, c4_single_asset ctx0 "RAY" 5 (by norm_num)⟩

/-- With a nonzero total the portfolio expected return is the finite
weighted sum of the lookup returns. -/
theorem portfolio_return_of_total_ne_zero {p : Portfolio} (ht : totalValue p ≠ 0) :
    portfolio_return p =
      some ((p.map (fun h => h.2 / totalValue p * return_map h.1)).sum) := by
  unfold portfolio_return
  have hmap : p.map (fun h => fmulQ (weightAt p h.2) (some (return_map h.1))) =
      (p.map (fun h => h.2 / totalValue p * return_map h.1)).map some := by
    rw [List.map_map]
    refine List.map_congr_left ?_
    intro h _
    rw [weightAt_of_total_ne_zero ht]
    rfl
  rw [hmap, fsumQ_map_some]

/-- Claim C5: with positive total value, the Sharpe ratio is
`(Σ wᵢ·E[rᵢ] - 0.05) / portfolio_volatility` whenever the volatility is
positive, it is 0 whenever the volatility is 0, and it is never
non-finite; the expected returns come from the static lookup table
(`0.15` for unknown symbols, recorded in `return_map`). -/
theorem c5_sharpe (ctx : Ctx) (p : Portfolio) (ht : 0 < totalValue p) :
    ∃ rm r, calculate_risk_metrics ctx p = some rm ∧
      portfolio_return p = some r ∧
      r = (p.map (fun h => h.2 / totalValue p * return_map h.1)).sum ∧
      (∀ v, rm.portfolio_volatility = some v → 0 < v →
        rm.sharpe = some (((r : ℝ) - 0.05) / v)) ∧
      (∀ v, rm.portfolio_volatility = some v → v = 0 → rm.sharpe = some 0) ∧
      rm.sharpe ≠ none := by
  have hne : p ≠ [] := by
    intro h
    rw [h] at ht
    simp [totalValue] at ht
  have hret := portfolio_return_of_total_ne_zero (ne_of_gt ht)
  refine ⟨_, _, calculate_risk_metrics_of_ne_nil ctx hne, hret, rfl, ?_, ?_, ?_⟩
  · intro v hv hvpos
    replace hv : calculate_portfolio_volatility p = some v := hv
    show calculate_sharpe p = _
    unfold calculate_sharpe
    rw [hv]
    dsimp only
    rw [if_pos hvpos, hret]
    rw [show toR (some ((p.map (fun h => h.2 / totalValue p * return_map h.1)).sum)) =
      some (((p.map (fun h => h.2 / totalValue p * return_map h.1)).sum : ℝ)) from rfl]
    show (if v = (0 : ℝ) then none else some (_ / v)) = _
    rw [if_neg hvpos.ne']
  · intro v hv hv0
    replace hv : calculate_portfolio_volatility p = some v := hv
    show calculate_sharpe p = some 0
    unfold calculate_sharpe
    rw [hv]
    dsimp only
    rw [if_neg (by rw [hv0]; exact lt_irrefl 0)]
  · show calculate_sharpe p ≠ none
    unfold calculate_sharpe
    rcases hcv : calculate_portfolio_volatility p with _ | v
    · simp
    · dsimp only
      by_cases h0 : 0 < v
      · rw [if_pos h0, hret]
        rw [show toR (some ((p.map (fun h => h.2 / totalValue p * return_map h.1)).sum)) =
          some (((p.map (fun h => h.2 / totalValue p * return_map h.1)).sum : ℝ)) from rfl]
        show (if v = (0 : ℝ) then none else some (_ / v)) ≠ none
        rw [if_neg h0.ne']
        simp
      · rw [if_neg h0]
        simp

/-- Witness for C5 at the portfolio `[SOL: 70, USDC: 30]`. -/
theorem c5_sharpe_witness :
    0 < totalValue [("SOL", 70), ("USDC", 30)] ∧
    ∃ rm r, calculate_risk_metrics ctx0 [("SOL", 70), ("USDC", 30)] = some rm ∧
      portfolio_return [("SOL", 70), ("USDC", 30)] = some r ∧
      r = ([("SOL", (70 : ℚ)), ("USDC", 30)].map
        (fun h => h.2 / totalValue [("SOL", 70), ("USDC", 30)] * return_map h.1)).sum ∧
      (∀ v, rm.portfolio_volatility = some v → 0 < v →
        rm.sharpe = some (((r : ℝ) - 0.05) / v)) ∧
      (∀ v, rm.portfolio_volatility = some v → v = 0 → rm.sharpe = some 0) ∧
      rm.sharpe ≠ none :=
  ⟨by norm_num [totalValue],
   c5_sharpe ctx0 [("SOL", 70), ("USDC", 30)] (by norm_num [totalValue])⟩

/-- The embedded correlation summary reads nothing but the number of
symbols: the freshly seeded `np.random.rand(n, n)` matrix is a function
of `n` alone. -/
theorem analyze_correlations_length_only (ctx : Ctx) (s t : List String)
    (hlen : s.length = t.length) :
    analyze_correlations ctx s = analyze_correlations ctx t := by
  unfold analyze_correlations
  simp only [hlen]

/-- Claim C10: any two non-empty portfolios with positive total value and
the same number of holdings receive identical `avg_correlation`,
`max_correlation`, `correlation_risk` and `correlation_matrix` values
from `calculate_risk_metrics`, whatever their symbols or weights. -/
theorem c10_correlation_depends_only_on_count (ctx : Ctx) (p q : Portfolio)
    (hlen : p.length = q.length) (htp : 0 < totalValue p) (htq : 0 < totalValue q) :
    ∃ rmp rmq, calculate_risk_metrics ctx p = some rmp ∧
      calculate_risk_metrics ctx q = some rmq ∧
      rmp.corr.avg_correlation = rmq.corr.avg_correlation ∧
      rmp.corr.max_correlation = rmq.corr.max_correlation ∧
      rmp.corr.correlation_risk = rmq.corr.correlation_risk ∧
      rmp.corr.correlation_matrix = rmq.corr.correlation_matrix := by
  have hnep : p ≠ [] := by
    intro h
    rw [h] at htp
    simp [totalValue] at htp
  have hneq : q ≠ [] := by
    intro h
    rw [h] at htq
    simp [totalValue] at htq
  have hs : analyze_correlations ctx (p.map Prod.fst) =
      analyze_correlations ctx (q.map Prod.fst) :=
    analyze_correlations_length_only ctx _ _ (by simp [hlen])
  exact ⟨_, _, calculate_risk_metrics_of_ne_nil ctx hnep,
    calculate_risk_metrics_of_ne_nil ctx hneq,
    by rw [show _ = analyze_correlations ctx (p.map Prod.fst) from rfl, hs],
    by rw [show _ = analyze_correlations ctx (p.map Prod.fst) from rfl, hs],
    by rw [show _ = analyze_correlations ctx (p.map Prod.fst) from rfl, hs],
    by rw [show _ = analyze_correlations ctx (p.map Prod.fst) from rfl, hs]⟩

/-- Witness for C10: the portfolios `[SOL: 70, USDC: 30]` and
`[RAY: 1, ORCA: 2]` (same length, different symbols and weights). -/
theorem c10_correlation_depends_only_on_count_witness :
    ([("SOL", (70 : ℚ)), ("USDC", 30)] : Portfolio).length =
      ([("RAY", 1), ("ORCA", 2)] : Portfolio).length ∧
    0 < totalValue [("SOL", 70), ("USDC", 30)] ∧
    0 < totalValue [("RAY", 1), ("ORCA", 2)] ∧
    ∃ rmp rmq, calculate_risk_metrics ctx0 [("SOL", 70), ("USDC", 30)] = some rmp ∧
      calculate_risk_metrics ctx0 [("RAY", 1), ("ORCA", 2)] = some rmq ∧
      rmp.corr.avg_correlation = rmq.corr.avg_correlation ∧
      rmp.corr.max_correlation = rmq.corr.max_correlation ∧
      rmp.corr.correlation_risk = rmq.corr.correlation_risk ∧
      rmp.corr.correlation_matrix = rmq.corr.correlation_matrix :=
  ⟨rfl, by norm_num [totalValue], by norm_num [totalValue],
   c10_correlation_depends_only_on_count ctx0 _ _ rfl
     (by norm_num [totalValue]) (by norm_num [totalValue])⟩

/-- Claim C2: on an empty matrix `analyze_correlation_insights` returns
the well-formed all-zero report, but on a 1×1 matrix (one symbol) the
off-diagonal array is empty and `np.max` raises `ValueError` — the
function does not return the claimed zeroed report. -/
theorem c2_insights_degenerate :
    analyze_correlation_insights { syms := [], entry := fun _ _ => 0 } = .ok zeroReport ∧
    analyze_correlation_insights { syms := ["SOL"], entry := fun _ _ => 1 } =
      .error "zero-size array to reduction operation maximum which has no identity" := by
  constructor
  · rfl
  · rfl

/-- Membership in a conditional singleton list. -/
theorem mem_ite_singleton {α : Type} (a b : α) (c : Prop) [Decidable c] :
    (a ∈ if c then [b] else ([] : List α)) ↔ c ∧ a = b := by
  split <;> simp_all

/-- A 2×2 matrix whose single off-diagonal pair has correlation 0.8. -/
def twoHighMatrix : CorrMatrixQ :=
  { syms := ["A", "B"], entry := fun i j => if i = j then 1 else 0.8 }

/-- Claim C9 as stated is false: in the 2-symbol matrix with correlation
0.8, the one and only pair (so all `n(n-1)/2 = 1` of them, more than
half) is classified high, yet the code compares the count against
`len(tokens)/2 = 1` and does not emit the reduced-diversification
insight. -/
theorem c9_counterexample :
    ((analyze_correlation_insights twoHighMatrix).map
      (fun r => (r.high_correlations.length,
        r.risk_insights.contains
          "Many token pairs are highly correlated, reducing diversification benefits"))) =
      .ok (1, false) ∧
    (((pairList 2).length : ℚ)) / 2 < 1 := by
  constructor
  · norm_num [analyze_correlation_insights, twoHighMatrix, offDiagAll,
      highCorrelationPairs, lowCorrelationPairs, pairList, npMean, npMax,
      List.range_succ, List.range_zero,
      List.filter, List.contains, decide_eq_true_eq, List.cons_ne_nil,
      abs_of_pos, sup_eq_max, max_eq_right, List.mem_cons, List.mem_singleton,
      List.not_mem_nil, Except.map, List.length_cons, decide_False, decide_True]
    exact ⟨by decide, by decide⟩
  · rw [length_pairList]
    norm_num

/-- Membership of the count-threshold insight in the generated insight
list is exactly its guard, provided the probe string differs from the
other four insight strings. -/
theorem mem_insight_list (s1 s2 s3 s5 a : String) (c1 c2 c3 c4 c5 : Prop)
    [Decidable c1] [Decidable c2] [Decidable c3] [Decidable c4] [Decidable c5]
    (h1 : a ≠ s1) (h2 : a ≠ s2) (h3 : a ≠ s3) (h5 : a ≠ s5) :
    (a ∈ ((if c1 then [s1] else if c2 then [s2] else []) ++
      (if c3 then [s3] else []) ++ (if c4 then [a] else []) ++
      (if c5 then [s5] else [])) ↔ c4) := by
  by_cases hc1 : c1 <;> by_cases hc2 : c2 <;> by_cases hc3 : c3 <;>
    by_cases hc4 : c4 <;> by_cases hc5 : c5 <;>
    simp [hc1, hc2, hc3, hc4, hc5, h1, h2, h3, h5]

/-- For `n ≥ 2` the off-diagonal collection is non-empty. -/
theorem offDiagAll_ne_nil {M : CorrMatrixQ} (h2 : 2 ≤ M.syms.length) :
    offDiagAll M ≠ [] := by
  refine List.ne_nil_of_mem (a := M.entry 0 1) ?_
  unfold offDiagAll
  refine List.mem_flatMap.2 ⟨0, List.mem_range.2 (by omega),
    List.mem_map.2 ⟨1, List.mem_filter.2 ⟨List.mem_range.2 (by omega), by decide⟩, rfl⟩⟩

/-- Claim C9 (amended): for every matrix with `n ≥ 2` symbols the
reduced-diversification insight is emitted exactly when the number of
pairs with correlation above 0.7 exceeds `n / 2` — the token count
halved, not half of the `n(n-1)/2` pairs. -/
theorem c9_high_insight_threshold (M : CorrMatrixQ) (h2 : 2 ≤ M.syms.length) :
    ∃ r, analyze_correlation_insights M = .ok r ∧
      ("Many token pairs are highly correlated, reducing diversification benefits"
          ∈ r.risk_insights ↔
        (((highCorrelationPairs M).length : ℚ)) > (M.syms.length : ℚ) / 2) := by
  have hne : M.syms ≠ [] := by
    intro h
    rw [h] at h2
    simp at h2
  obtain ⟨x, xs, hxs⟩ := List.exists_cons_of_ne_nil (offDiagAll_ne_nil h2)
  unfold analyze_correlation_insights
  rw [if_neg hne, hxs]
  dsimp only
  refine ⟨_, rfl, ?_⟩
  exact mem_insight_list _ _ _ _ _ _ _ _ _ _ (by decide) (by decide) (by decide) (by decide)

/-- Witness for C9 (amended) at a concrete 3×3 matrix with two high
pairs out of three (2 > 3/2, so the insight fires). -/
theorem c9_high_insight_threshold_witness :
    2 ≤ (["A", "B", "C"] : List String).length ∧
    ∃ r, analyze_correlation_insights
        { syms := ["A", "B", "C"], entry := fun i j => if i = j then 1 else 0.9 } = .ok r ∧
      ("Many token pairs are highly correlated, reducing diversification benefits"
          ∈ r.risk_insights ↔
        (((highCorrelationPairs
            { syms := ["A", "B", "C"], entry := fun i j => if i = j then 1 else 0.9 }).length : ℚ)) >
          ((["A", "B", "C"] : List String).length : ℚ) / 2) :=
  ⟨by norm_num,
   c9_high_insight_threshold _ (by norm_num)⟩

/-- Claim C6 as stated is false: for a single symbol
`calculate_correlations` returns an ordinary 1×1 matrix, and for empty
input an empty matrix — there is no distinguished "insufficient data"
result in either case. -/
theorem c6_counterexample :
    (calculate_correlations 30 [("SOL", fun _ => 100)]).syms = ["SOL"] ∧
    (calculate_correlations 30 ([] : List (String × (ℕ → ℝ)))).syms = [] := by
  exact ⟨rfl, rfl⟩

/-- Claim C6 (amended): `calculate_correlations` always returns a matrix
indexed by exactly the input columns — an empty matrix for empty input, a
1×1 matrix for one symbol (no explicit insufficient-data marker), and an
`n`-symbol matrix with exactly `n(n-1)/2` distinct off-diagonal pairs. -/
theorem c6_matrix_shape (days : ℕ) (tbl : List (String × (ℕ → ℝ))) :
    (calculate_correlations days tbl).syms = tbl.map Prod.fst ∧
    (pairList (calculate_correlations days tbl).syms.length).length =
      tbl.length * (tbl.length - 1) / 2 := by
  refine ⟨rfl, ?_⟩
  rw [length_pairList]
  simp [calculate_correlations]

/-- Claim C7: the synthetic price generator begins with
`np.random.seed(42)`, so its output is independent of the RNG position
the call starts from: two independent calls with the same symbol list
and lookback produce identical price series for every symbol. -/
theorem c7_generator_deterministic (g : MockGen) (pos1 pos2 : ℕ)
    (symbols : List String) (days : ℕ) :
    generate_mock_historical_data g pos1 symbols days =
      generate_mock_historical_data g pos2 symbols days := rfl

/-- The centered cross-product sum is symmetric in its two columns. -/
theorem centeredSum_comm (m : ℕ) (x y : ℕ → ℝ) :
    centeredSum m x y = centeredSum m y x := by
  unfold centeredSum
  exact Finset.sum_congr rfl (fun j _ => mul_comm _ _)

/-- The centered sum of squares is non-negative. -/
theorem centeredSum_self_nonneg (m : ℕ) (x : ℕ → ℝ) : 0 ≤ centeredSum m x x := by
  unfold centeredSum
  exact Finset.sum_nonneg (fun j _ => mul_self_nonneg _)

/-- Pearson correlation is symmetric. -/
theorem pearson_symm (m : ℕ) (x y : ℕ → ℝ) : pearson m x y = pearson m y x := by
  unfold pearson
  rw [centeredSum_comm m x y, mul_comm]

/-- Pearson self-correlation is exactly 1 for a non-constant column. -/
theorem pearson_self (m : ℕ) (x : ℕ → ℝ) (h : centeredSum m x x ≠ 0) :
    pearson m x x = 1 := by
  unfold pearson
  rw [Real.mul_self_sqrt (centeredSum_self_nonneg m x)]
  exact div_self h

/-- Cauchy-Schwarz for the centered sums. -/
theorem centeredSum_sq_le (m : ℕ) (x y : ℕ → ℝ) :
    (centeredSum m x y) ^ 2 ≤ centeredSum m x x * centeredSum m y y := by
  unfold centeredSum
  have h := Finset.sum_mul_sq_le_sq_mul_sq (Finset.range m)
    (fun j => x j - (∑ i ∈ Finset.range m, x i) / m)
    (fun j => y j - (∑ i ∈ Finset.range m, y i) / m)
  simpa only [pow_two] using h

/-- Pearson correlation of two non-constant columns lies in `[-1, 1]`. -/
theorem pearson_bounds (m : ℕ) (x y : ℕ → ℝ) (hx : centeredSum m x x ≠ 0)
    (hy : centeredSum m y y ≠ 0) : -1 ≤ pearson m x y ∧ pearson m x y ≤ 1 := by
  have hx' : 0 < centeredSum m x x := (centeredSum_self_nonneg m x).lt_of_ne (Ne.symm hx)
  have hy' : 0 < centeredSum m y y := (centeredSum_self_nonneg m y).lt_of_ne (Ne.symm hy)
  have hd : 0 < Real.sqrt (centeredSum m x x) * Real.sqrt (centeredSum m y y) :=
    mul_pos (Real.sqrt_pos.2 hx') (Real.sqrt_pos.2 hy')
  have hsq : (centeredSum m x y) ^ 2 ≤
      (Real.sqrt (centeredSum m x x) * Real.sqrt (centeredSum m y y)) ^ 2 := by
    rw [mul_pow, Real.sq_sqrt hx'.le, Real.sq_sqrt hy'.le]
    exact centeredSum_sq_le m x y
  have habs : |centeredSum m x y| ≤
      Real.sqrt (centeredSum m x x) * Real.sqrt (centeredSum m y y) := by
    rw [← Real.sqrt_sq_eq_abs]
    calc Real.sqrt ((centeredSum m x y) ^ 2) ≤
        Real.sqrt ((Real.sqrt (centeredSum m x x) * Real.sqrt (centeredSum m y y)) ^ 2) :=
          Real.sqrt_le_sqrt hsq
      _ = Real.sqrt (centeredSum m x x) * Real.sqrt (centeredSum m y y) :=
          Real.sqrt_sq hd.le
  have : |pearson m x y| ≤ 1 := by
    unfold pearson
    rw [abs_div]
    rw [abs_of_pos hd]
    exact (div_le_one hd).2 habs
  exact abs_le.1 this

/-- The placeholder matrix of the Risk Metrics Calculator is symmetric
with unit diagonal, whatever the seeded draws are. -/
theorem placeholderMatrix_symm_diag (ctx : Ctx) (n : ℕ) :
    (∀ i j, placeholderMatrix ctx n i j = placeholderMatrix ctx n j i) ∧
    (∀ i, placeholderMatrix ctx n i i = 1) := by
  constructor
  · intro i j
    unfold placeholderMatrix
    by_cases h : i = j
    · rw [if_pos h, if_pos h.symm]
    · rw [if_neg h, if_neg (Ne.symm h), add_comm]
  · intro i
    unfold placeholderMatrix
    rw [if_pos rfl]

/-- Claim C8: the correlation matrix of the synthetic fallback price data
is symmetric, has diagonal exactly 1 and off-diagonal entries in
`[-1, 1]`, for any symbol set — provided each generated return column is
non-constant (true of the actual fixed seed-42 normal draws); and the
placeholder matrix embedded in the Risk Metrics Calculator is symmetric
with unit diagonal unconditionally. -/
theorem c8_correlation_matrix_invariants (g : MockGen) (pos : ℕ)
    (symbols : List String) (days : ℕ)
    (hvar : ∀ i < symbols.length,
      centeredSum (days - 1)
        (pct_change (tblCol (generate_mock_historical_data g pos symbols days) i))
        (pct_change (tblCol (generate_mock_historical_data g pos symbols days) i)) ≠ 0) :
    (∀ i j, (calculate_correlations days (generate_mock_historical_data g pos symbols days)).entry i j =
      (calculate_correlations days (generate_mock_historical_data g pos symbols days)).entry j i) ∧
    (∀ i < symbols.length,
      (calculate_correlations days (generate_mock_historical_data g pos symbols days)).entry i i = 1) ∧
    (∀ i j, i < symbols.length → j < symbols.length →
      -1 ≤ (calculate_correlations days (generate_mock_historical_data g pos symbols days)).entry i j ∧
      (calculate_correlations days (generate_mock_historical_data g pos symbols days)).entry i j ≤ 1) ∧
    (∀ (ctx : Ctx) (n : ℕ),
      (∀ i j, placeholderMatrix ctx n i j = placeholderMatrix ctx n j i) ∧
      (∀ i, placeholderMatrix ctx n i i = 1)) := by
  refine ⟨?_, ?_, ?_, fun ctx n => placeholderMatrix_symm_diag ctx n⟩
  · intro i j
    exact pearson_symm _ _ _
  · intro i hi
    exact pearson_self _ _ (hvar i hi)
  · intro i j hi hj
    exact pearson_bounds _ _ _ (hvar i hi) (hvar j hj)

/-- A concrete stand-in draw stream for witness statements: the `k`-th
normal draw is `k`, all uniform draws are 0. -/
noncomputable def gen0 : MockGen := { nrm := fun k => (k : ℝ), unif := fun _ => 0 }

/-- A two-row centered sum of squares is nonzero when the entries differ. -/
theorem centeredSum_two_ne_zero (x : ℕ → ℝ) (h : x 0 ≠ x 1) :
    centeredSum 2 x x ≠ 0 := by
  unfold centeredSum
  simp only [Finset.sum_range_succ, Finset.sum_range_zero]
  intro hc
  rw [show ((2 : ℕ) : ℝ) = 2 by norm_num] at hc
  have hsq : (x 0 - x 1) ^ 2 = 0 := by nlinarith [hc]
  exact h (sub_eq_zero.1 ((pow_eq_zero_iff two_ne_zero).1 hsq))

/-- Witness for C8: the symbol list `["SOL"]`, 3 lookback days and the
`gen0` streams; the generated SOL return column takes the two distinct
values 0.051 and 0.101, so its centered variance is nonzero. -/
theorem c8_correlation_matrix_invariants_witness :
    (∀ i < (["SOL"] : List String).length,
      centeredSum (3 - 1)
        (pct_change (tblCol (generate_mock_historical_data gen0 0 ["SOL"] 3) i))
        (pct_change (tblCol (generate_mock_historical_data gen0 0 ["SOL"] 3) i)) ≠ 0) ∧
    ((∀ i j, (calculate_correlations 3 (generate_mock_historical_data gen0 0 ["SOL"] 3)).entry i j =
      (calculate_correlations 3 (generate_mock_historical_data gen0 0 ["SOL"] 3)).entry j i) ∧
    (∀ i < (["SOL"] : List String).length,
      (calculate_correlations 3 (generate_mock_historical_data gen0 0 ["SOL"] 3)).entry i i = 1) ∧
    (∀ i j, i < (["SOL"] : List String).length → j < (["SOL"] : List String).length →
      -1 ≤ (calculate_correlations 3 (generate_mock_historical_data gen0 0 ["SOL"] 3)).entry i j ∧
      (calculate_correlations 3 (generate_mock_historical_data gen0 0 ["SOL"] 3)).entry i j ≤ 1) ∧
    (∀ (ctx : Ctx) (n : ℕ),
      (∀ i j, placeholderMatrix ctx n i j = placeholderMatrix ctx n j i) ∧
      (∀ i, placeholderMatrix ctx n i i = 1))) := by
  have hcol : tblCol (generate_mock_historical_data gen0 0 ["SOL"] 3) 0 =
      pricesFrom (100 * (0 + 1)) (fun j => 0.001 + 0.05 * ((0 + j : ℕ) : ℝ)) := by
    simp [generate_mock_historical_data, genAux, symbolReturns, tblCol, gen0]
  have hvar : ∀ i < (["SOL"] : List String).length,
      centeredSum (3 - 1)
        (pct_change (tblCol (generate_mock_historical_data gen0 0 ["SOL"] 3) i))
        (pct_change (tblCol (generate_mock_historical_data gen0 0 ["SOL"] 3) i)) ≠ 0 := by
    intro i hi
    simp only [List.length_cons, List.length_nil] at hi
    obtain rfl : i = 0 := by omega
    show centeredSum 2 _ _ ≠ 0
    refine centeredSum_two_ne_zero _ ?_
    rw [hcol]
    unfold pct_change
    have h0 : (pricesFrom (100 * (0 + 1)) (fun j => 0.001 + 0.05 * ((0 + j : ℕ) : ℝ)) 1 -
        pricesFrom (100 * (0 + 1)) (fun j => 0.001 + 0.05 * ((0 + j : ℕ) : ℝ)) 0) /
        pricesFrom (100 * (0 + 1)) (fun j => 0.001 + 0.05 * ((0 + j : ℕ) : ℝ)) 0 =
        0.051 := by
      simp [pricesFrom]
      norm_num
    have h1 : (pricesFrom (100 * (0 + 1)) (fun j => 0.001 + 0.05 * ((0 + j : ℕ) : ℝ)) 2 -
        pricesFrom (100 * (0 + 1)) (fun j => 0.001 + 0.05 * ((0 + j : ℕ) : ℝ)) 1) /
        pricesFrom (100 * (0 + 1)) (fun j => 0.001 + 0.05 * ((0 + j : ℕ) : ℝ)) 1 =
        0.101 := by
      simp [pricesFrom]
      norm_num
    rw [h0, h1]
    norm_num
  exact ⟨hvar, c8_correlation_matrix_invariants gen0 0 ["SOL"] 3 hvar⟩
